import Mathlib

/-!
Verification development for the bastion supervision runtime
(`src/bastion.rs`).  The definitions below are a shallow embedding of the
data model and of the operations of the runtime: pure functions embed the
pure parts, stateful code is embedded as explicit state passing, and
fallible unwraps return `Option`.  Modules of the crate that are not part
of the provided sources (`config.rs`, `supervisor.rs`, `child.rs`,
`context.rs`, `tramp.rs`, `runtime_system.rs`) are modelled from the
specification, and each such definition says so in its doc comment.
-/

/-- Log severity filter of the `log` crate, as used by `BastionConfig`. -/
inductive LevelFilter where
  | Off
  | Error
  | Warn
  | Info
  | Debug
  | Trace
deriving DecidableEq

/-- Modelled from the spec: `config.rs` is not among the sources.  The
configuration surface has exactly the options `log_level` and `in_test`
(spec, section 6), matching the doc examples in `bastion.rs`. -/
structure BastionConfig where
  log_level : LevelFilter
  in_test : Bool
deriving DecidableEq

/-- State of the `env_logger::Builder` after the configuration calls
performed by `Bastion::platform_from_config`: the default filter level
installed by `.filter(None, level)`, the `.is_test(..)` flag, and whether
`.init()` has run. -/
structure LogBuilder where
  filterLevel : Option LevelFilter
  isTest : Bool
  initDone : Bool
deriving DecidableEq

/-- Embeds `Builder::from_default_env()` as far as the engine observes it:
a builder with nothing configured yet.  Both platform constructors go
through this same call. -/
def builderFromDefaultEnv : LogBuilder :=
  { filterLevel := none, isTest := false, initDone := false }

/-- Embeds the `Bastion` struct (`src/bastion.rs`, lines 45-49): the
initial runtime configuration together with the log builder. -/
structure Bastion where
  config : BastionConfig
  log_builder : LogBuilder
deriving DecidableEq

/-- Embeds `Bastion::platform_from_config` (`src/bastion.rs`, lines
73-91): build the platform value from the given configuration, then
configure the log builder from `config.log_level` and `config.in_test`
and initialize it. -/
def platform_from_config (config : BastionConfig) : Bastion :=
  let log_builder := builderFromDefaultEnv
  let platform : Bastion := { config := config, log_builder := log_builder }
  let platform : Bastion :=
    { platform with
      log_builder :=
        { platform.log_builder with
          filterLevel := some platform.config.log_level
          isTest := platform.config.in_test
          initDone := true } }
  platform

/-- Embeds `Bastion::platform` (`src/bastion.rs`, lines 105-112): builds
the default configuration with log level `Info` and `in_test = false`
and delegates to `platform_from_config`. -/
def platform : Bastion :=
  let default_config : BastionConfig := { log_level := LevelFilter.Info, in_test := false }
  platform_from_config default_config

/-- Supervision strategy of a supervisor
(`use crate::supervisor::SupervisionStrategy`).  Modelled from the spec
(`supervisor.rs` is not among the sources): the strategy is one of
`OneForOne`, `OneForAll`, `RestForOne`. -/
inductive SupervisionStrategy where
  | OneForOne
  | OneForAll
  | RestForOne
deriving DecidableEq

/-- Child record (`use crate::child::BastionChildren`).  The fields are
those constructed in `Bastion::spawn` (`src/bastion.rs`, lines 371-378):
identity string, optional mailbox producer `tx` and consumer `rx`
(endpoints of a crossbeam channel, modelled as numeric endpoint tokens),
redundancy factor, and the cloneable initial message and user closure
(opaque cloneable values, modelled as numeric tokens). -/
structure BastionChildren where
  id : String
  tx : Option Nat
  rx : Option Nat
  redundancy : Int
  msg : Nat
  thunk : Nat
deriving DecidableEq

/-- Stable URN of a supervisor.  Modelled from the spec (`supervisor.rs`
is not among the sources): the URN is the stable combination of the
`(name, system)` pair, modelled as the pair itself. -/
structure Urn where
  name : String
  system : String
deriving DecidableEq

/-- Supervisor context bookkeeping (`supervisor.rs` / `context.rs` are not
among the sources).  Modelled from the spec and from the field accesses in
`bastion.rs`: `ctx.descendants` is the ordered sequence of installed child
records and `ctx.killed` the ordered sequence of killed child records. -/
structure SupervisorCtx where
  descendants : List BastionChildren
  killed : List BastionChildren
deriving DecidableEq

/-- Supervisor node (`use crate::supervisor::Supervisor`).  Modelled from
the spec (`supervisor.rs` is not among the sources): URN, strategy and the
context bookkeeping used by `bastion.rs`. -/
structure Supervisor where
  urn : Urn
  strategy : SupervisionStrategy
  ctx : SupervisorCtx
deriving DecidableEq

/-- Modelled from the spec: `Supervisor::default()` — default strategy is
`OneForOne` (spec, section 6), with empty bookkeeping and a default URN. -/
def Supervisor.default : Supervisor :=
  { urn := { name := "", system := "" }
    strategy := SupervisionStrategy.OneForOne
    ctx := { descendants := [], killed := [] } }

/-- Modelled from the spec: `Supervisor::props(name, system)` combines the
`(name, system)` pair into the node's stable URN (spec, section 3). -/
def Supervisor.props (s : Supervisor) (name system : String) : Supervisor :=
  { s with urn := { name := name, system := system } }

/-- Supervision registry tree (`ego_tree::Tree<Supervisor>`), embedded as
a rose tree of supervisor values.  Node identifiers of `ego_tree` are
embedded as positional paths (lists of child indices), which `clone`
preserves exactly as `ego_tree` preserves its `NodeId`s across `clone`. -/
inductive RegTree where
  | node (value : Supervisor) (children : List RegTree)

/-- Value stored at the root node of a registry tree
(`registry.root().value()` / `registry.root_mut().value()`). -/
def RegTree.value : RegTree → Supervisor
  | RegTree.node v _ => v

/-- Child subtrees of the root node of a registry tree. -/
def RegTree.rootChildren : RegTree → List RegTree
  | RegTree.node _ cs => cs

mutual

/-- Embeds `registry.get_mut(id).unwrap().append(k)` of `ego_tree`: append
`nc` as the last child of the node at path `p` (no change when the path
does not exist, matching that the engine only uses ids of live nodes). -/
def RegTree.appendAt : RegTree → List Nat → RegTree → RegTree
  | RegTree.node v cs, [], nc => RegTree.node v (cs ++ [nc])
  | RegTree.node v cs, i :: rest, nc => RegTree.node v (RegTree.appendAtL cs i rest nc)

/-- Helper of `RegTree.appendAt`: descend into the `i`-th child. -/
def RegTree.appendAtL : List RegTree → Nat → List Nat → RegTree → List RegTree
  | [], _, _, _ => []
  | c :: cs, 0, rest, nc => RegTree.appendAt c rest nc :: cs
  | c :: cs, j + 1, rest, nc => c :: RegTree.appendAtL cs j rest nc

end

mutual

/-- Embeds `Bastion::traverse_registry` (`src/bastion.rs`, lines 151-166).
Arguments: `registry` is the tree value the function received (a clone of
the shared registry), `root` is the subtree of the node the `NodeRef`
argument points at, `rootPath` its path (its `NodeId`), `ns` the new
supervisor.  The loop walks the children of `root` in order; on the first
child whose `urn` equals `ns.urn` it appends `ns` under that child in
`registry` and breaks.  On a non-matching child the source recurses with
`registry.clone()` — a fresh clone whose mutations are discarded, embedded
here by discarding the recursive result. -/
def traverse_registry (registry : RegTree) (root : RegTree) (rootPath : List Nat)
    (ns : Supervisor) : RegTree :=
  match root with
  | RegTree.node _ cs => traverse_registry_loop registry cs rootPath 0 ns

/-- Loop body of `traverse_registry` over the children of the current
node, carrying the index of the child under iteration. -/
def traverse_registry_loop (registry : RegTree) (cs : List RegTree) (rootPath : List Nat)
    (idx : Nat) (ns : Supervisor) : RegTree :=
  match cs with
  | [] => registry
  | i :: rest =>
    if (RegTree.value i).urn = ns.urn then
      RegTree.appendAt registry (rootPath ++ [idx]) (RegTree.node ns [])
    else
      let _discardedClone := traverse_registry registry i (rootPath ++ [idx]) ns
      traverse_registry_loop registry rest rootPath (idx + 1) ns

end

/-- Embeds `Bastion::traverse` (`src/bastion.rs`, lines 168-175): lock the
platform registry, call `traverse_registry` on `registry.clone()` with the
root node, and return `ns`.  The mutated clone is dropped; the function
returns the shared registry (unchanged) together with the supervisor it
hands back to the caller. -/
def traverse (sharedRegistry : RegTree) (ns : Supervisor) : RegTree × Supervisor :=
  let _mutatedClone := traverse_registry sharedRegistry sharedRegistry [] ns
  (sharedRegistry, ns)

/-- Embeds `Bastion::supervisor(name, system)` (`src/bastion.rs`, lines
143-146): build `Supervisor::default().props(name, system)` and run the
placement traversal, returning the (possibly updated) shared registry and
the supervisor handed back to the caller. -/
def bastionSupervisor (sharedRegistry : RegTree) (name system : String) :
    RegTree × Supervisor :=
  let sp := Supervisor.default.props name system
  traverse sharedRegistry sp

/-- Helper for `rustContains`: does `pat` occur as a contiguous sublist of
the second argument? -/
def containsSub (pat : List Char) : List Char → Bool
  | [] => pat.isEmpty
  | c :: rest => List.isPrefixOf pat (c :: rest) || containsSub pat rest

/-- Embeds Rust's `str::contains` with a string pattern, as used in
`killed.id.contains(&i.id)` (`src/bastion.rs`, line 219): substring test
(the empty pattern is contained in every string). -/
def rustContains (hay pat : String) : Bool :=
  containsSub pat.toList hay.toList

/-- Embeds a send loop with per-child `children.tx.as_ref().unwrap()`:
returns the list of child records to whose producer a message is sent, in
send order, and `none` when some `tx` unwrap hits a `None` (a panic in the
source). -/
def unwrapSends : List BastionChildren → Option (List BastionChildren)
  | [] => some []
  | c :: rest =>
    match c.tx with
    | none => none
    | some _ => (unwrapSends rest).map (fun l => c :: l)

/-- Embeds the nested `RestForOne` loops (`src/bastion.rs`, lines
217-229): for each killed record, clone `descendants` and retain the
records whose id is not contained in the killed record's id, producing
the flat sequence of send targets in loop order. -/
def restForOneTargets (descendants : List BastionChildren) :
    List BastionChildren → List BastionChildren
  | [] => []
  | k :: rest =>
    descendants.filter (fun i => !(rustContains k.id i.id)) ++
      restForOneTargets descendants rest

/-- Embeds the strategy match of `Bastion::fault_recovery`
(`src/bastion.rs`, lines 188-239), projected onto the `PoisonPill` sends
it performs: the list of child records that receive a `PoisonPill`, in
send order (`none` when a `tx` unwrap fails).  `OneForOne` sends nothing;
`OneForAll` sends to every descendant; `RestForOne` sends to the retained
records of each killed entry. -/
def poisonTargets (s : Supervisor) : Option (List BastionChildren) :=
  match s.strategy with
  | SupervisionStrategy.OneForOne => some []
  | SupervisionStrategy.OneForAll => unwrapSends s.ctx.descendants
  | SupervisionStrategy.RestForOne =>
    unwrapSends (restForOneTargets s.ctx.descendants s.ctx.killed)

/-- Embeds the strategy match of `Bastion::fault_recovery`
(`src/bastion.rs`, lines 188-239), projected onto the `restart_needed`
value it computes: every branch returns a clone of `ctx.killed`. -/
def restart_needed (s : Supervisor) : List BastionChildren :=
  match s.strategy with
  | SupervisionStrategy.OneForOne => s.ctx.killed
  | SupervisionStrategy.OneForAll => s.ctx.killed
  | SupervisionStrategy.RestForOne => s.ctx.killed

/-- Follows the spec's words (section 4.4) for the `RestForOne` claim:
`tail(S.descendants, after=k)` — the subsequence of descendants installed
strictly after the first record with `k`'s id, in insertion order.  Used
only to compare the specified behaviour with the embedded one. -/
def specTailAfter (descendants : List BastionChildren) (k : BastionChildren) :
    List BastionChildren :=
  match descendants with
  | [] => []
  | d :: rest => if d.id = k.id then rest else specTailAfter rest k

/-- Modelled from the spec: `tramp.rs` is not among the sources.  The
trampoline state is the tagged variant `Traverse(remaining)` or
`Complete(remaining)` (spec, sections 4.5 and 9). -/
inductive Tramp (R : Type) where
  | Traverse (r : R)
  | Complete (r : R)

/-- Modelled from the spec: `Tramp::execute(f)` iterates `f` on the
carried value while the state is `Traverse` and returns the carried value
on `Complete` (spec, section 4.5: "iterate on it").  Embedded with an
explicit fuel bound; `none` means the fuel ran out before completion. -/
def Tramp.executeN {R : Type} (f : R → Tramp R) : Nat → Tramp R → Option R
  | _, Tramp.Complete r => some r
  | 0, Tramp.Traverse _ => none
  | fuel + 1, Tramp.Traverse r => Tramp.executeN f fuel (f r)

/-- Embeds the trampoline step closure of `Bastion::fault_recovery`
(`src/bastion.rs`, lines 243-298), projected onto the executor
submissions: the state is the pair of the remaining `desc` list and the
records submitted to the executor so far, in submission order.  An empty
`desc` yields `Complete`; otherwise `rest_child.pop()` removes the LAST
record, a restart task for it is submitted, and the step yields
`Traverse` on the remainder. -/
def recoveryStep (st : List BastionChildren × List BastionChildren) :
    Tramp (List BastionChildren × List BastionChildren) :=
  match st with
  | (desc, spawned) =>
    if desc.isEmpty then Tramp.Complete (desc, spawned)
    else
      let rest_child := desc.dropLast
      match desc.getLast? with
      | some children => Tramp.Traverse (rest_child, spawned ++ [children])
      | none => Tramp.Traverse (rest_child, spawned)

/-- Runs the recovery trampoline of `Bastion::fault_recovery` on a
restart set, returning the sequence of child records submitted to the
executor in submission order (fuel is one more than the list length,
which suffices). -/
def respawnSequence (restart : List BastionChildren) : Option (List BastionChildren) :=
  (Tramp.executeN recoveryStep (restart.length + 1) (Tramp.Traverse (restart, []))).map
    (fun st => st.2)

/-- Identity and mailbox endpoints with which a restarted child instance
is run by `Bastion::fault_recovery`. -/
structure RestartInstance where
  id : String
  tx : Nat
  rx : Nat
deriving DecidableEq

/-- Embeds the restart of one killed record inside the trampoline step
(`src/bastion.rs`, lines 249-270): the cloned thunk is run for the SAME
child record (same `id`), with `children.tx.as_ref().unwrap().clone()`
and `children.rx.clone().unwrap()` as its mailbox endpoints — clones of
the record's existing endpoints.  `none` embeds an unwrap panic. -/
def restartInstance (children : BastionChildren) : Option RestartInstance :=
  match children.tx, children.rx with
  | some tx, some rx => some { id := children.id, tx := tx, rx := rx }
  | _, _ => none

/-- Embeds the completion handler installed by `Bastion::spawn`
(`src/bastion.rs`, lines 414-433): under the tree lock it takes
`rootn.value().clone()` — a CLONE of the root supervisor — pushes
`if_killed` onto the clone's `ctx.killed`, releases the lock, and, iff
the guarded task ended by panic, invokes `fault_recovery` on that clone.
Returned: the shared registry after the handler, and the supervisor
passed to `fault_recovery` (`none` when no recovery is invoked). -/
def completionHandler (registry : RegTree) (if_killed : BastionChildren)
    (panicked : Bool) : RegTree × Option Supervisor :=
  let root := RegTree.value registry
  let root :=
    { root with ctx := { root.ctx with killed := root.ctx.killed ++ [if_killed] } }
  (registry, if panicked then some root else none)

/-- Embeds the effect of `Bastion::fault_recovery` on the process-wide
`FAULTED` stack (`src/bastion.rs`, lines 177-299), driven by the number
of nested panics among restarted children: on entry the supervisor is
pushed (line 184); when a restarted child panics, its guard pops the
topmost supervisor and re-enters `fault_recovery` on it (lines 272-287);
when the trampoline completes without a further panic the function
returns — no pop is performed on that path. -/
def faultRecoveryStack : List Supervisor → Supervisor → Nat → List Supervisor
  | faulted_ones, given, 0 => faulted_ones ++ [given]
  | faulted_ones, given, nested + 1 =>
    let pushed := faulted_ones ++ [given]
    faultRecoveryStack pushed.dropLast (pushed.getLast?.getD given) nested

/-- Embeds the child record constructed by `Bastion::spawn`
(`src/bastion.rs`, lines 368-378): fresh identity, a fresh channel from
`unbounded()` whose producer and consumer endpoints are both present,
redundancy `1`, and clones of the message and thunk. -/
def spawnChildRecord (idStr : String) (chan : Nat) (msg thunk : Nat) : BastionChildren :=
  { id := idStr
    tx := some (2 * chan)
    rx := some (2 * chan + 1)
    redundancy := 1
    msg := msg
    thunk := thunk }

/-- Embeds the registry mutation of `Bastion::spawn` (`src/bastion.rs`,
lines 384-395): `root.ctx.descendants.push(child)` on the root node of
the shared tree (the only mutation of the shared tree in the module). -/
def RegTree.pushRootDescendant : RegTree → BastionChildren → RegTree
  | RegTree.node v cs, c =>
    RegTree.node
      { v with ctx := { v.ctx with descendants := v.ctx.descendants ++ [c] } } cs

/-- Engine state observed through the shared registry: the registry tree
and the allocator counter for fresh channels. -/
structure EngineState where
  registry : RegTree
  nextChan : Nat

/-- Embeds the effect of one `Bastion::spawn` call on the engine state:
a fresh child record (fresh channel) is pushed onto the root supervisor's
descendants. -/
def EngineState.spawnStep (s : EngineState) (idStr : String) (msg thunk : Nat) :
    EngineState :=
  let child := spawnChildRecord idStr s.nextChan msg thunk
  { registry := s.registry.pushRootDescendant child, nextChan := s.nextChan + 1 }

/-- Modelled from the spec: `RuntimeSystem::start` (in
`runtime_system.rs`, not among the sources) creates the registry with the
implicit root supervisor, strategy `OneForOne` (spec, section 3). -/
def initialState : EngineState :=
  { registry := RegTree.node Supervisor.default [], nextChan := 0 }

/-- One engine operation as it affects the shared registry: a spawn, a
`Bastion::supervisor` call, or a run of the completion handler (the
latter two leave the shared registry unchanged, as their embeddings
show). -/
inductive EngineStep : EngineState → EngineState → Prop where
  | spawn (s : EngineState) (idStr : String) (msg thunk : Nat) :
      EngineStep s (s.spawnStep idStr msg thunk)
  | supervise (s : EngineState) (name system : String) :
      EngineStep s { s with registry := (bastionSupervisor s.registry name system).1 }
  | completion (s : EngineState) (if_killed : BastionChildren) (panicked : Bool) :
      EngineStep s { s with registry := (completionHandler s.registry if_killed panicked).1 }

/-- Engine states reachable from the initial platform state by engine
operations. -/
def Reachable (s : EngineState) : Prop :=
  Relation.ReflTransGen EngineStep initialState s

mutual

/-- All supervisor values stored in a registry tree. -/
def RegTree.allSupervisors : RegTree → List Supervisor
  | RegTree.node v cs => v :: RegTree.allSupervisorsL cs

/-- All supervisor values stored in a forest. -/
def RegTree.allSupervisorsL : List RegTree → List Supervisor
  | [] => []
  | t :: ts => RegTree.allSupervisors t ++ RegTree.allSupervisorsL ts

end

/-- All child records held by a list of supervisors (descendants and
killed). -/
def childrenOfSups : List Supervisor → List BastionChildren
  | [] => []
  | sv :: rest => sv.ctx.descendants ++ sv.ctx.killed ++ childrenOfSups rest

/-- All child records reachable through a registry tree. -/
def RegTree.allChildrenRecords (t : RegTree) : List BastionChildren :=
  childrenOfSups t.allSupervisors

/-- The send set the `RestForOne` branch actually produces when ids are
pairwise substring-free (the UUID case): for each killed record, every
descendant whose id differs from the killed record's id — including the
descendants installed before it. -/
def notSelfTargets (descendants : List BastionChildren) :
    List BastionChildren → List BastionChildren
  | [] => []
  | k :: rest =>
    descendants.filter (fun i => !(i.id == k.id)) ++ notSelfTargets descendants rest

/-- Concrete child record used in witnesses and counterexamples, shaped
exactly like the records `Bastion::spawn` creates. -/
def sampleChild (idStr : String) (chan : Nat) : BastionChildren :=
  { id := idStr
    tx := some (2 * chan)
    rx := some (2 * chan + 1)
    redundancy := 1
    msg := 0
    thunk := 0 }

/-- Concrete supervisor used in witnesses and counterexamples. -/
def sampleSupervisor (strat : SupervisionStrategy)
    (descendants killed : List BastionChildren) : Supervisor :=
  { urn := { name := "n", system := "s" }
    strategy := strat
    ctx := { descendants := descendants, killed := killed } }

/-- The supervisor clone that the completion handler passes to fault
recovery after the root's first spawned child (identity `"a"`, channel
`0`) completes by panic on a fresh platform: the root clone with that
child both installed and recorded as killed. -/
def sampleFaultedClone : Supervisor :=
  { urn := { name := "", system := "" }
    strategy := SupervisionStrategy.OneForOne
    ctx := { descendants := [spawnChildRecord "a" 0 0 0]
             killed := [spawnChildRecord "a" 0 0 0] } }

/-- C10: `Bastion::platform()` behaves exactly like
`Bastion::platform_from_config(cfg)` with the fixed configuration
`cfg = { log_level: Info, in_test: false }`: the two constructors produce
identical platform state.  In the source, `platform` literally builds this
configuration and delegates, so the equation holds definitionally. -/
theorem platform_eq_platform_from_config :
    platform = platform_from_config { log_level := LevelFilter.Info, in_test := false } := rfl

/-- Helper: a send loop over records whose producers are all present
performs exactly one send per record, in order. -/
theorem unwrapSends_eq_some (l : List BastionChildren)
    (h : ∀ c ∈ l, c.tx.isSome = true) : unwrapSends l = some l := by
  induction l with
  | nil => rfl
  | cons c rest ih =>
    have hc : c.tx.isSome = true := h c (List.mem_cons_self c rest)
    have hrest : ∀ x ∈ rest, x.tx.isSome = true :=
      fun x hx => h x (List.mem_cons_of_mem c hx)
    cases htx : c.tx with
    | none => rw [htx] at hc; cases hc
    | some t => simp [unwrapSends, htx, ih hrest]

/-- Helper: every `RestForOne` send target is a descendant. -/
theorem mem_restForOneTargets {c : BastionChildren}
    {descendants killed : List BastionChildren}
    (h : c ∈ restForOneTargets descendants killed) : c ∈ descendants := by
  induction killed with
  | nil => cases h
  | cons k rest ih =>
    rcases List.mem_append.mp h with h1 | h1
    · exact (List.mem_filter.mp h1).1
    · exact ih h1

/-- Helper: every strategy branch computes `restart_needed` as the killed
sequence. -/
theorem restart_needed_eq (s : Supervisor) : restart_needed s = s.ctx.killed := by
  cases h : s.strategy <;> simp [restart_needed, h]

/-- Helper: a full run of the recovery trampoline pops records from the
tail until the list is empty, so the submission order is the reverse of
the restart list. -/
theorem executeN_recoveryStep (l acc : List BastionChildren) :
    Tramp.executeN recoveryStep (l.length + 1) (Tramp.Traverse (l, acc)) =
      some ([], acc ++ l.reverse) := by
  induction l using List.reverseRecOn generalizing acc with
  | nil => simp [Tramp.executeN, recoveryStep]
  | append_singleton l' a ih =>
    have hstep : recoveryStep (l' ++ [a], acc) =
        Tramp.Traverse (l', acc ++ [a]) := by
      simp [recoveryStep, List.getLast?_concat]
    calc Tramp.executeN recoveryStep ((l' ++ [a]).length + 1)
          (Tramp.Traverse (l' ++ [a], acc))
        = Tramp.executeN recoveryStep (l'.length + 1)
          (recoveryStep (l' ++ [a], acc)) := by
          simp [List.length_append, Tramp.executeN]
      _ = Tramp.executeN recoveryStep (l'.length + 1)
          (Tramp.Traverse (l', acc ++ [a])) := by rw [hstep]
      _ = some ([], acc ++ [a] ++ l'.reverse) := ih (acc ++ [a])
      _ = some ([], acc ++ (l' ++ [a]).reverse) := by simp

/-- Helper: the recovery trampoline submits exactly the restart list in
reverse order. -/
theorem respawnSequence_eq_reverse (l : List BastionChildren) :
    respawnSequence l = some l.reverse := by
  simp [respawnSequence, executeN_recoveryStep]

/-- Helper: a child held by some supervisor of a list (as descendant or as
killed record) is among the records collected from that list. -/
theorem mem_childrenOfSups {c : BastionChildren} {sv : Supervisor}
    {sups : List Supervisor} (hsv : sv ∈ sups)
    (hc : c ∈ sv.ctx.descendants ∨ c ∈ sv.ctx.killed) :
    c ∈ childrenOfSups sups := by
  induction sups with
  | nil => cases hsv
  | cons s rest ih =>
    rcases List.mem_cons.mp hsv with h | h
    · subst h
      simp only [childrenOfSups, List.mem_append]
      tauto
    · have hr := ih h
      simp only [childrenOfSups, List.mem_append]
      tauto

/-- Helper: pushing a child onto the root's descendants adds exactly that
record to the records reachable through the tree. -/
theorem mem_allChildren_push {c' c : BastionChildren} {t : RegTree}
    (h : c' ∈ (t.pushRootDescendant c).allChildrenRecords) :
    c' ∈ t.allChildrenRecords ∨ c' = c := by
  cases t with
  | node v cs =>
    simp only [RegTree.pushRootDescendant, RegTree.allChildrenRecords,
      RegTree.allSupervisors, childrenOfSups, List.mem_append, List.mem_append,
      List.mem_singleton] at h ⊢
    tauto

/-- Helper: a record with both endpoints present survives the two unwraps
of the restart path. -/
theorem restartInstance_isSome {c : BastionChildren} (htx : c.tx.isSome = true)
    (hrx : c.rx.isSome = true) : restartInstance c ≠ none := by
  cases h1 : c.tx with
  | none => rw [h1] at htx; cases htx
  | some t =>
    cases h2 : c.rx with
    | none => rw [h2] at hrx; cases hrx
    | some r => simp [restartInstance, h1, h2]

/-- Helper: when no id of a killed record contains the id of a distinct
descendant (the UUID situation), the retain predicate of the `RestForOne`
branch coincides with "id differs from the killed record's id". -/
theorem restForOneTargets_eq_notSelf {descendants killed : List BastionChildren}
    (hid : ∀ k ∈ killed, ∀ d ∈ descendants,
      (rustContains k.id d.id = true ↔ d.id = k.id)) :
    restForOneTargets descendants killed = notSelfTargets descendants killed := by
  induction killed with
  | nil => rfl
  | cons k rest ih =>
    have hk := hid k (List.mem_cons_self k rest)
    have hrest : ∀ k' ∈ rest, ∀ d ∈ descendants,
        (rustContains k'.id d.id = true ↔ d.id = k'.id) :=
      fun k' h' => hid k' (List.mem_cons_of_mem k h')
    have hfil : descendants.filter (fun i => !(rustContains k.id i.id)) =
        descendants.filter (fun i => !(i.id == k.id)) := by
      apply List.filter_congr
      intro d hd
      have h3 : rustContains k.id d.id = (d.id == k.id) := by
        rw [Bool.eq_iff_iff]
        exact (hk d hd).trans beq_iff_eq.symm
      rw [h3]
    simp only [restForOneTargets, notSelfTargets]
    rw [hfil, ih hrest]

/-- Helper: the root supervisor value is among the supervisors stored in
the tree. -/
theorem value_mem_allSupervisors (t : RegTree) : t.value ∈ t.allSupervisors := by
  cases t with
  | node v cs => simp [RegTree.value, RegTree.allSupervisors]

/-- Helper: for a supervisor whose descendants all carry a producer, the
strategy send loops of fault recovery never hit a `None` unwrap, under
any strategy. -/
theorem poisonTargets_isSome (sv : Supervisor)
    (hdesc : ∀ c ∈ sv.ctx.descendants, c.tx.isSome = true) :
    poisonTargets sv ≠ none := by
  cases hstrat : sv.strategy with
  | OneForOne => simp [poisonTargets, hstrat]
  | OneForAll => simp [poisonTargets, hstrat, unwrapSends_eq_some _ hdesc]
  | RestForOne =>
    have htar : ∀ c ∈ restForOneTargets sv.ctx.descendants sv.ctx.killed,
        c.tx.isSome = true :=
      fun c hc => hdesc c (mem_restForOneTargets hc)
    simp [poisonTargets, hstrat, unwrapSends_eq_some _ htar]

/-- C9: for every child record reachable by the engine (installed in a
supervisor's descendants or recorded in killed), the mailbox producer and
consumer are both present, and consequently the engine's unwraps of the
producer in fault recovery's send loops and of the producer and consumer
in the restart path never hit the `None` branch.  This holds both for the
supervisors stored in the shared registry and for the supervisor clones
the completion handler actually hands to fault recovery after a spawned
child completes — clones whose killed sequence is nonempty, since the
completed child's record belongs to their restart set. -/
theorem engine_endpoints_present (s : EngineState) (h : Reachable s) :
    (∀ c ∈ s.registry.allChildrenRecords, c.tx.isSome = true ∧ c.rx.isSome = true) ∧
    (∀ sv ∈ s.registry.allSupervisors,
      poisonTargets sv ≠ none ∧
        ∀ c ∈ restart_needed sv, restartInstance c ≠ none) ∧
    ∀ if_killed ∈ s.registry.value.ctx.descendants, ∀ panicked sv,
      (completionHandler s.registry if_killed panicked).2 = some sv →
        if_killed ∈ restart_needed sv ∧
        poisonTargets sv ≠ none ∧
        ∀ c ∈ restart_needed sv, restartInstance c ≠ none := by
  have inv : ∀ c ∈ s.registry.allChildrenRecords,
      c.tx.isSome = true ∧ c.rx.isSome = true := by
    unfold Reachable at h
    induction h with
    | refl =>
      intro c hc
      simp [initialState, RegTree.allChildrenRecords, RegTree.allSupervisors,
        RegTree.allSupervisorsL, childrenOfSups, Supervisor.default] at hc
    | tail hab hstep ih =>
      cases hstep with
      | spawn idStr msg thunk =>
        intro c hc
        simp only [EngineState.spawnStep] at hc
        rcases mem_allChildren_push hc with h1 | h1
        · exact ih c h1
        · subst h1
          exact ⟨rfl, rfl⟩
      | supervise name system =>
        intro c hc
        exact ih c hc
      | completion ik p =>
        intro c hc
        exact ih c hc
  refine ⟨inv, ?_, ?_⟩
  · intro sv hsv
    have hdesc : ∀ c ∈ sv.ctx.descendants, c.tx.isSome = true :=
      fun c hc => (inv c (mem_childrenOfSups hsv (Or.inl hc))).1
    have hkill : ∀ c ∈ sv.ctx.killed, c.tx.isSome = true ∧ c.rx.isSome = true :=
      fun c hc => inv c (mem_childrenOfSups hsv (Or.inr hc))
    refine ⟨poisonTargets_isSome sv hdesc, ?_⟩
    intro c hc
    rw [restart_needed_eq] at hc
    exact restartInstance_isSome (hkill c hc).1 (hkill c hc).2
  · intro ik hik panicked sv hsv
    have hroot := value_mem_allSupervisors s.registry
    have hikp : ik.tx.isSome = true ∧ ik.rx.isSome = true :=
      inv ik (mem_childrenOfSups hroot (Or.inl hik))
    cases panicked with
    | false => simp [completionHandler] at hsv
    | true =>
      have hsv2 : some { s.registry.value with ctx :=
          { s.registry.value.ctx with
            killed := s.registry.value.ctx.killed ++ [ik] } } = some sv := by
        rw [← hsv]
        rfl
      have hsveq := Option.some.inj hsv2
      subst hsveq
      refine ⟨?_, ?_, ?_⟩
      · simp [restart_needed_eq]
      · apply poisonTargets_isSome
        intro c hc
        exact (inv c (mem_childrenOfSups hroot (Or.inl hc))).1
      · intro c hc
        simp only [restart_needed_eq] at hc
        rcases List.mem_append.mp hc with h1 | h1
        · have hcp := inv c (mem_childrenOfSups hroot (Or.inr h1))
          exact restartInstance_isSome hcp.1 hcp.2
        · rw [List.mem_singleton] at h1
          subst h1
          exact restartInstance_isSome hikp.1 hikp.2

/-- Witness for C9 at a concrete reachable state — the state reached from
platform initialization by one spawn — including the non-vacuous
fault-recovery case: the spawned child's record completes by panic, the
handler hands fault recovery the root clone `sampleFaultedClone` whose
killed sequence holds that record, the record belongs to the restart set,
and both its unwraps succeed. -/
theorem engine_endpoints_present_witness :
    Reachable (EngineState.spawnStep initialState "a" 0 0) ∧
    ((∀ c ∈ (EngineState.spawnStep initialState "a" 0 0).registry.allChildrenRecords,
        c.tx.isSome = true ∧ c.rx.isSome = true) ∧
      (∀ sv ∈ (EngineState.spawnStep initialState "a" 0 0).registry.allSupervisors,
        poisonTargets sv ≠ none ∧
          ∀ c ∈ restart_needed sv, restartInstance c ≠ none) ∧
      ∀ if_killed ∈
          (EngineState.spawnStep initialState "a" 0 0).registry.value.ctx.descendants,
        ∀ panicked sv,
          (completionHandler (EngineState.spawnStep initialState "a" 0 0).registry
              if_killed panicked).2 = some sv →
            if_killed ∈ restart_needed sv ∧
            poisonTargets sv ≠ none ∧
            ∀ c ∈ restart_needed sv, restartInstance c ≠ none) ∧
    (completionHandler (EngineState.spawnStep initialState "a" 0 0).registry
        (spawnChildRecord "a" 0 0 0) true).2 = some sampleFaultedClone ∧
    spawnChildRecord "a" 0 0 0 ∈ restart_needed sampleFaultedClone ∧
    poisonTargets sampleFaultedClone ≠ none ∧
    restartInstance (spawnChildRecord "a" 0 0 0) ≠ none := by
  have hr : Reachable (EngineState.spawnStep initialState "a" 0 0) :=
    Relation.ReflTransGen.single (EngineStep.spawn initialState "a" 0 0)
  have main := engine_endpoints_present _ hr
  have hmem : spawnChildRecord "a" 0 0 0 ∈
      (EngineState.spawnStep initialState "a" 0 0).registry.value.ctx.descendants := by
    decide
  have hcomp : (completionHandler (EngineState.spawnStep initialState "a" 0 0).registry
      (spawnChildRecord "a" 0 0 0) true).2 = some sampleFaultedClone := by
    decide
  obtain ⟨h1, h2, h3⟩ :=
    main.2.2 (spawnChildRecord "a" 0 0 0) hmem true sampleFaultedClone hcomp
  exact ⟨hr, main, hcomp, h1, h2, h3 _ h1⟩

/-- C1: evaluation of `Bastion::supervisor("k", "m")` at the failing
input — a fresh platform whose registry holds only the root supervisor.
The claim (and the method's own documentation) requires the new
supervisor to be inserted into the supervision tree, under the first
URN match or else under the root; the code mutates a clone of the
registry that is immediately dropped and has no fallback branch, so the
shared registry is returned unchanged and still holds only the root. -/
theorem supervisor_not_inserted :
    (bastionSupervisor (RegTree.node Supervisor.default []) "k" "m").1 =
      RegTree.node Supervisor.default [] ∧
    RegTree.allSupervisors
        (bastionSupervisor (RegTree.node Supervisor.default []) "k" "m").1 =
      [Supervisor.default] :=
  ⟨rfl, rfl⟩

/-- C2 counterexample: under `RestForOne` with descendants `a`, `b`, `c`
installed in that order and killed child `b`, the claim predicts that
exactly the descendants installed after `b` — only `c` — receive the
Terminate envelope; the code sends it to `a` and `c`, so the descendant
`a` installed before the killed child is messaged as well. -/
theorem restForOne_counterexample :
    poisonTargets (sampleSupervisor SupervisionStrategy.RestForOne
        [sampleChild "a" 0, sampleChild "b" 1, sampleChild "c" 2]
        [sampleChild "b" 1]) =
      some [sampleChild "a" 0, sampleChild "c" 2] ∧
    specTailAfter [sampleChild "a" 0, sampleChild "b" 1, sampleChild "c" 2]
        (sampleChild "b" 1) = [sampleChild "c" 2] ∧
    poisonTargets (sampleSupervisor SupervisionStrategy.RestForOne
        [sampleChild "a" 0, sampleChild "b" 1, sampleChild "c" 2]
        [sampleChild "b" 1]) ≠
      some (specTailAfter [sampleChild "a" 0, sampleChild "b" 1, sampleChild "c" 2]
        (sampleChild "b" 1)) := by
  decide

/-- C2 amended: for every supervisor with strategy `RestForOne` whose
descendants all carry a producer and whose killed ids contain a
descendant id only when the two ids are equal (the UUID situation), fault
recovery sends the Terminate envelope, for each killed record `k`, to
every descendant other than `k` itself — including the descendants
installed before `k` — and the restart set is the killed sequence. -/
theorem restForOne_sends_all_but_killed (s : Supervisor)
    (hstrat : s.strategy = SupervisionStrategy.RestForOne)
    (htx : ∀ c ∈ s.ctx.descendants, c.tx.isSome = true)
    (hid : ∀ k ∈ s.ctx.killed, ∀ d ∈ s.ctx.descendants,
      (rustContains k.id d.id = true ↔ d.id = k.id)) :
    poisonTargets s = some (notSelfTargets s.ctx.descendants s.ctx.killed) ∧
    restart_needed s = s.ctx.killed := by
  refine ⟨?_, restart_needed_eq s⟩
  have htar : ∀ c ∈ restForOneTargets s.ctx.descendants s.ctx.killed,
      c.tx.isSome = true :=
    fun c hc => htx c (mem_restForOneTargets hc)
  rw [← restForOneTargets_eq_notSelf hid]
  simp [poisonTargets, hstrat, unwrapSends_eq_some _ htar]

/-- Witness for the amended C2 at the concrete supervisor of the
counterexample. -/
theorem restForOne_sends_all_but_killed_witness :
    poisonTargets (sampleSupervisor SupervisionStrategy.RestForOne
        [sampleChild "a" 0, sampleChild "b" 1, sampleChild "c" 2]
        [sampleChild "b" 1]) =
      some (notSelfTargets
        [sampleChild "a" 0, sampleChild "b" 1, sampleChild "c" 2]
        [sampleChild "b" 1]) ∧
    restart_needed (sampleSupervisor SupervisionStrategy.RestForOne
        [sampleChild "a" 0, sampleChild "b" 1, sampleChild "c" 2]
        [sampleChild "b" 1]) = [sampleChild "b" 1] :=
  restForOne_sends_all_but_killed _ rfl (by decide) (by decide)

/-- C3 counterexample: at a fresh registry whose root has an empty killed
sequence, after the completion handler runs for a panicked child the
killed sequence of the root supervisor in the SHARED tree still does not
contain that child's record — the handler pushed it onto a dropped clone,
while the claim requires the append to land in the shared tree. -/
theorem completion_shared_tree_counterexample :
    sampleChild "x" 0 ∉
      (RegTree.value
        (completionHandler (RegTree.node Supervisor.default [])
          (sampleChild "x" 0) true).1).ctx.killed := by
  decide

/-- C3 amended: for every registry, child record and outcome, the
completion handler leaves the shared supervision tree unchanged; under
the tree lock it appends the child record to the killed sequence of a
local clone of the root supervisor, and it invokes fault recovery — on
that clone — if and only if the guarded task ended by panic. -/
theorem completion_handler_spec (registry : RegTree)
    (if_killed : BastionChildren) (panicked : Bool) :
    (completionHandler registry if_killed panicked).1 = registry ∧
    (completionHandler registry if_killed panicked).2 =
      (if panicked then
        some { registry.value with ctx :=
          { registry.value.ctx with
            killed := registry.value.ctx.killed ++ [if_killed] } }
       else none) :=
  ⟨rfl, rfl⟩

/-- C4 counterexample: a top-level fault on an empty faulted stack whose
recovery completes without any nested panic leaves the stack at depth
one, not drained back to its previous depth zero as the claim states. -/
theorem faulted_stack_counterexample :
    faultRecoveryStack [] Supervisor.default 0 ≠ [] := by
  decide

/-- C4 amended: each invocation of fault recovery pushes exactly one
supervisor onto the process-wide faulted stack on entry; a nested panic
during a restarted child pops exactly the topmost supervisor and
re-enters recovery on it (leaving the depth unchanged across the
re-entry); no pop is performed when recovery completes, so after a
top-level fault the stack is one deeper than before it, for any number
of nested panics. -/
theorem faulted_stack_growth (stack : List Supervisor) (given : Supervisor)
    (nested : Nat) :
    faultRecoveryStack stack given nested = stack ++ [given] := by
  induction nested generalizing stack given with
  | zero => rfl
  | succ n ih =>
    simp only [faultRecoveryStack, List.dropLast_concat, List.getLast?_concat,
      Option.getD_some]
    exact ih stack given

/-- C5: for every supervisor with strategy `OneForAll` (whose descendants
all carry a producer, as the engine guarantees), fault recovery sends the
Terminate envelope to every element of the descendants sequence in order,
and the restart set it then respawns is exactly the killed sequence —
living siblings are not preemptively added to the restart set. -/
theorem oneForAll_spec (s : Supervisor)
    (hstrat : s.strategy = SupervisionStrategy.OneForAll)
    (htx : ∀ c ∈ s.ctx.descendants, c.tx.isSome = true) :
    poisonTargets s = some s.ctx.descendants ∧
    restart_needed s = s.ctx.killed ∧
    respawnSequence (restart_needed s) = some s.ctx.killed.reverse := by
  refine ⟨?_, restart_needed_eq s, ?_⟩
  · simp [poisonTargets, hstrat, unwrapSends_eq_some _ htx]
  · rw [restart_needed_eq]
    exact respawnSequence_eq_reverse _

/-- Witness for C5 at a concrete `OneForAll` supervisor with two
descendants of which one is killed. -/
theorem oneForAll_spec_witness :
    poisonTargets (sampleSupervisor SupervisionStrategy.OneForAll
        [sampleChild "a" 0, sampleChild "b" 1] [sampleChild "a" 0]) =
      some [sampleChild "a" 0, sampleChild "b" 1] ∧
    restart_needed (sampleSupervisor SupervisionStrategy.OneForAll
        [sampleChild "a" 0, sampleChild "b" 1] [sampleChild "a" 0]) =
      [sampleChild "a" 0] ∧
    respawnSequence (restart_needed (sampleSupervisor SupervisionStrategy.OneForAll
        [sampleChild "a" 0, sampleChild "b" 1] [sampleChild "a" 0])) =
      some [sampleChild "a" 0] :=
  oneForAll_spec _ rfl (by decide)

/-- C6: for every supervisor with strategy `OneForOne`, fault recovery
sends the Terminate envelope to no sibling at all and respawns exactly
the children recorded in the killed sequence: every record the trampoline
submits to the executor is a member of the killed sequence. -/
theorem oneForOne_spec (s : Supervisor)
    (hstrat : s.strategy = SupervisionStrategy.OneForOne) :
    poisonTargets s = some [] ∧
    respawnSequence (restart_needed s) = some s.ctx.killed.reverse ∧
    ∀ l, respawnSequence (restart_needed s) = some l →
      ∀ c ∈ l, c ∈ s.ctx.killed := by
  refine ⟨by simp [poisonTargets, hstrat], ?_, ?_⟩
  · rw [restart_needed_eq]
    exact respawnSequence_eq_reverse _
  · intro l hl c hc
    rw [restart_needed_eq, respawnSequence_eq_reverse] at hl
    injection hl with h
    subst h
    exact List.mem_reverse.mp hc

/-- Witness for C6 at a concrete `OneForOne` supervisor with two
descendants of which one is killed. -/
theorem oneForOne_spec_witness :
    poisonTargets (sampleSupervisor SupervisionStrategy.OneForOne
        [sampleChild "a" 0, sampleChild "b" 1] [sampleChild "b" 1]) = some [] ∧
    respawnSequence (restart_needed (sampleSupervisor SupervisionStrategy.OneForOne
        [sampleChild "a" 0, sampleChild "b" 1] [sampleChild "b" 1])) =
      some [sampleChild "b" 1] ∧
    ∀ l, respawnSequence (restart_needed (sampleSupervisor SupervisionStrategy.OneForOne
        [sampleChild "a" 0, sampleChild "b" 1] [sampleChild "b" 1])) = some l →
      ∀ c ∈ l, c ∈ [sampleChild "b" 1] :=
  oneForOne_spec _ rfl

/-- C7 counterexample: with two killed entries recorded in the order
`a` then `b`, the recovery trampoline submits `b` first — the child
recorded as killed LAST is respawned first, refuting processing in
insertion order. -/
theorem respawn_order_counterexample :
    respawnSequence [sampleChild "a" 0, sampleChild "b" 1] =
      some [sampleChild "b" 1, sampleChild "a" 0] ∧
    some [sampleChild "b" 1, sampleChild "a" 0] ≠
      some [sampleChild "a" 0, sampleChild "b" 1] := by
  decide

/-- C7 amended: whenever the restart set contains more than one killed
entry, the trampoline pops entries from the tail of the killed sequence,
so the entries are respawned in REVERSE insertion order: the child
recorded as killed last is respawned first. -/
theorem respawn_reverse_order (restart : List BastionChildren) :
    respawnSequence restart = some restart.reverse :=
  respawnSequence_eq_reverse restart

/-- C8 counterexample: for a child spawned with channel endpoints `0` and
`1`, the restarted instance is installed with exactly those endpoints, so
the claim that a new producer (distinct from the old one) is installed
fails at this input. -/
theorem restart_endpoints_counterexample :
    ¬ (∀ i : RestartInstance,
        restartInstance (sampleChild "x" 0) = some i →
          (some i.tx ≠ (sampleChild "x" 0).tx ∧
            some i.rx ≠ (sampleChild "x" 0).rx)) := by
  intro h
  have hi := h { id := "x", tx := 0, rx := 1 } rfl
  exact hi.1 rfl

/-- C8 amended: when fault recovery respawns a killed child, the
restarted instance keeps the same identity string as the original, and
the mailbox endpoints installed for it are clones of the record's
existing producer and consumer — the old endpoints are reused, no fresh
endpoints are created. -/
theorem restart_keeps_identity_and_endpoints (c : BastionChildren) (t r : Nat)
    (htx : c.tx = some t) (hrx : c.rx = some r) :
    restartInstance c = some { id := c.id, tx := t, rx := r } := by
  simp [restartInstance, htx, hrx]

/-- Witness for the amended C8 at a concrete child record. -/
theorem restart_keeps_identity_and_endpoints_witness :
    restartInstance (sampleChild "x" 3) = some { id := "x", tx := 6, rx := 7 } :=
  restart_keeps_identity_and_endpoints (sampleChild "x" 3) 6 7 rfl rfl
